import Mathlib

/-!
# Verification of the upload-processing pipeline

Shallow embedding of the upload-processing core of the repository:

* `src/server.js` — the Request Server (cluster worker): `POST /upload`
  routing, report validation via `assert`, content-addressed persistence,
  response construction, and the error handlers.
* `src/unnamed/part_005` (log-processor.js) — the Analysis Worker: incremental
  SHA-256 over the received chunks, readline-based line splitting with
  `crlfDelay: Infinity`, line/error counters, and the terminal report message.

Bytes are modelled as `Nat` values (each `< 256` on real inputs); machine
32-bit arithmetic in SHA-256 is `Nat` arithmetic reduced modulo `2 ^ 32`.
-/

namespace Pipeline

/-! ## SHA-256 (semantics of Node's `crypto.createHash('sha256')`)

`log-processor.js` feeds every received chunk to an incremental SHA-256
accumulator (`hash.update`) and finalizes with `hash.digest('hex')`.  The
accumulator is modelled as the list of bytes fed so far; finalization is the
SHA-256 function below (FIPS 180-4), producing the lowercase hex digest string
exactly as `digest('hex')` does. -/

/-- Truncate to a 32-bit word. -/
def w32 (n : Nat) : Nat := n % 4294967296

/-- 32-bit right rotation of a word `x < 2^32`. -/
def rotr (n x : Nat) : Nat := w32 ((x >>> n) ||| (x <<< (32 - n)))

/-- The 64 SHA-256 round constants (FIPS 180-4 §4.2.2, written in decimal). -/
def sha256K : List Nat :=
  [1116352408, 1899447441, 3049323471, 3921009573, 961987163,
   1508970993, 2453635748, 2870763221, 3624381080, 310598401,
   607225278, 1426881987, 1925078388, 2162078206, 2614888103,
   3248222580, 3835390401, 4022224774, 264347078, 604807628,
   770255983, 1249150122, 1555081692, 1996064986, 2554220882,
   2821834349, 2952996808, 3210313671, 3336571891, 3584528711,
   113926993, 338241895, 666307205, 773529912, 1294757372,
   1396182291, 1695183700, 1986661051, 2177026350, 2456956037,
   2730485921, 2820302411, 3259730800, 3345764771, 3516065817,
   3600352804, 4094571909, 275423344, 430227734, 506948616,
   659060556, 883997877, 958139571, 1322822218, 1537002063,
   1747873779, 1955562222, 2024104815, 2227730452, 2361852424,
   2428436474, 2756734187, 3204031479, 3329325298]

/-- Big-endian byte encoding of `n` into `k` bytes. -/
def beBytes (k n : Nat) : List Nat :=
  (List.range k).map fun i => (n >>> (8 * (k - 1 - i))) % 256

/-- SHA-256 padding: append `0x80`, zero bytes up to 56 mod 64, then the
bit length as 8 big-endian bytes. -/
def padMsg (m : List Nat) : List Nat :=
  let z := (119 - m.length % 64) % 64
  m ++ [128] ++ List.replicate z 0 ++ beBytes 8 (8 * m.length)

/-- Split a byte list into its 64-byte blocks. -/
def toBlocks (l : List Nat) : List (List Nat) :=
  (List.range ((l.length + 63) / 64)).map fun i => ((l.drop (64 * i)).take 64)

/-- The sixteen 32-bit big-endian words of one 64-byte block. -/
def blockWords (b : List Nat) : List Nat :=
  (List.range 16).map fun j => ((b.drop (4 * j)).take 4).foldl (fun a x => a * 256 + x) 0

/-- Message-schedule small sigma 0. -/
def ssig0 (x : Nat) : Nat := Nat.xor (Nat.xor (rotr 7 x) (rotr 18 x)) (x >>> 3)

/-- Message-schedule small sigma 1. -/
def ssig1 (x : Nat) : Nat := Nat.xor (Nat.xor (rotr 17 x) (rotr 19 x)) (x >>> 10)

/-- Extend 16 message words to the 64-word schedule. -/
def schedule (w0 : List Nat) : List Nat :=
  (List.range 48).foldl
    (fun ws _ =>
      let n := ws.length
      ws ++ [w32 (ws.getD (n - 16) 0 + ssig0 (ws.getD (n - 15) 0) +
                  ws.getD (n - 7) 0 + ssig1 (ws.getD (n - 2) 0))])
    w0

/-- The eight working variables of the compression loop. -/
structure H8 where
  a : Nat
  b : Nat
  c : Nat
  d : Nat
  e : Nat
  f : Nat
  g : Nat
  h : Nat
deriving Repr, DecidableEq

/-- One SHA-256 compression round with constant `ki` and schedule word `wi`. -/
def round256 (s : H8) (ki wi : Nat) : H8 :=
  let S1 := Nat.xor (Nat.xor (rotr 6 s.e) (rotr 11 s.e)) (rotr 25 s.e)
  let ch := Nat.xor (Nat.land s.e s.f) (Nat.land (Nat.xor s.e 4294967295) s.g)
  let t1 := w32 (s.h + S1 + ch + ki + wi)
  let S0 := Nat.xor (Nat.xor (rotr 2 s.a) (rotr 13 s.a)) (rotr 22 s.a)
  let mj := Nat.xor (Nat.xor (Nat.land s.a s.b) (Nat.land s.a s.c)) (Nat.land s.b s.c)
  let t2 := w32 (S0 + mj)
  ⟨w32 (t1 + t2), s.a, s.b, s.c, w32 (s.d + t1), s.e, s.f, s.g⟩

/-- Compress one 64-byte block into the running hash state. -/
def compress (st : H8) (block : List Nat) : H8 :=
  let ws := schedule (blockWords block)
  let s := (sha256K.zip ws).foldl (fun s p => round256 s p.1 p.2) st
  ⟨w32 (st.a + s.a), w32 (st.b + s.b), w32 (st.c + s.c), w32 (st.d + s.d),
   w32 (st.e + s.e), w32 (st.f + s.f), w32 (st.g + s.g), w32 (st.h + s.h)⟩

/-- The eight initial SHA-256 hash words (FIPS 180-4 §5.3.3, in decimal). -/
def initH8 : H8 :=
  ⟨1779033703, 3144134277, 1013904242, 2773480762,
   1359893119, 2600822924, 528734635, 1541459225⟩

/-- SHA-256 of a byte list, as the eight final hash words. -/
def sha256Words (m : List Nat) : H8 :=
  (toBlocks (padMsg m)).foldl compress initH8

/-- Lowercase hex digit for `n < 16`. -/
def hexDigit (n : Nat) : Char :=
  if n < 10 then Char.ofNat (48 + n) else Char.ofNat (87 + n)

/-- The 8 lowercase hex characters of one 32-bit word, most significant first. -/
def wordHex (n : Nat) : List Char :=
  (List.range 8).map fun i => hexDigit ((n >>> (4 * (7 - i))) % 16)

/-- `hash.digest('hex')`: the 64-character lowercase hex digest. -/
def sha256hex (m : List Nat) : String :=
  let s := sha256Words m
  String.mk (wordHex s.a ++ wordHex s.b ++ wordHex s.c ++ wordHex s.d ++
             wordHex s.e ++ wordHex s.f ++ wordHex s.g ++ wordHex s.h)

/-! ## Analysis Worker (`src/unnamed/part_005`, log-processor.js)

The worker owns module-scoped state: a SHA-256 accumulator (`hash`), a
readline interface over a manually fed stream with `crlfDelay: Infinity`,
and the counters `lineCount` / `errorCount`.  Readline with
`crlfDelay: Infinity` splits on `\n`, `\r\n` and lone `\r`, where a `\r`
at the end of one chunk followed by `\n` at the start of the next counts as a
single `\r\n` terminator (the `kSawReturnAt` mechanism with infinite delay);
this makes line splitting a function of the byte stream alone, which the
byte-at-a-time machine below implements.  Content is modelled as bytes; the
markers searched by `line.includes` are their ASCII byte sequences. -/

/-- Does the pattern `p` occur at the head of `l`? -/
def matchesAt : List Nat → List Nat → Bool
  | [], _ => true
  | _ :: _, [] => false
  | p :: ps, x :: xs => p == x && matchesAt ps xs

/-- `line.includes(pat)`: does `pat` occur contiguously anywhere in `l`? -/
def containsSub (pat : List Nat) : List Nat → Bool
  | [] => pat.isEmpty
  | x :: xs => matchesAt pat (x :: xs) || containsSub pat xs

/-- ASCII bytes of `"ERROR"`. -/
def errorBytes : List Nat := [69, 82, 82, 79, 82]

/-- ASCII bytes of `"CRITICAL"`. -/
def criticalBytes : List Nat := [67, 82, 73, 84, 73, 67, 65, 76]

/-- `line.includes('ERROR') || line.includes('CRITICAL')` from the
`rl.on('line')` handler. -/
def isErrorLine (line : List Nat) : Bool :=
  containsSub errorBytes line || containsSub criticalBytes line

/-- State of the readline side of the worker: the counters updated by the
`rl.on('line')` handler, the bytes of the current unterminated line, and
whether the last consumed byte was a bare `\r` (so that an immediately
following `\n` is part of the same terminator). -/
structure LineState where
  lineCount : Nat
  errorCount : Nat
  cur : List Nat
  sawCR : Bool
deriving Repr, DecidableEq

/-- Counters and buffer before any input. -/
def initLS : LineState := ⟨0, 0, [], false⟩

/-- The `rl.on('line')` handler: `lineCount++`, and `errorCount++` when the
line contains a marker. -/
def onLine (lc ec : Nat) (line : List Nat) : Nat × Nat :=
  (lc + 1, if isErrorLine line then ec + 1 else ec)

/-- Feed one byte to the readline machine.  `\n` (10) and `\r` (13) terminate
the current line (a `\n` directly after a `\r` is the tail of one `\r\n`
terminator and is skipped); any other byte extends the current line. -/
def feedByte (st : LineState) (b : Nat) : LineState :=
  if st.sawCR && b == 10 then { st with sawCR := false }
  else if b == 10 || b == 13 then
    let p := onLine st.lineCount st.errorCount st.cur
    ⟨p.1, p.2, [], b == 13⟩
  else { st with cur := st.cur ++ [b], sawCR := false }

/-- Feed a whole chunk, byte by byte in order. -/
def feedChunk (st : LineState) (bs : List Nat) : LineState :=
  bs.foldl feedByte st

/-- End of stream (`incomingStream.push(null)` → readline `'close'`): a
non-empty trailing partial line is emitted as one final line. -/
def closeLines (st : LineState) : Nat × Nat :=
  if st.cur.isEmpty then (st.lineCount, st.errorCount)
  else onLine st.lineCount st.errorCount st.cur

/-- A message on the worker's `parentPort`, as posted by `server.js`:
a `type` tag and (for chunks) the payload bytes. -/
structure Msg where
  type : String
  data : List Nat
deriving Repr, DecidableEq

/-- The terminal report posted back by `rl.on('close')`:
`{status: 'success', finalHash, lineCount, errorCount}`. -/
structure WReport where
  status : String
  finalHash : String
  lineCount : Nat
  errorCount : Nat
deriving Repr, DecidableEq

/-- Whole-worker state: bytes fed to the SHA-256 accumulator so far
(`hash.update` concatenates), the readline state, and whether the stream
has been ended. -/
structure WorkerState where
  hashAcc : List Nat
  ls : LineState
  ended : Bool
deriving Repr, DecidableEq

/-- Worker state at spawn. -/
def initWS : WorkerState := ⟨[], initLS, false⟩

/-- The `parentPort.on('message')` handler.  A `'chunk'` message feeds its
bytes to the hash and the stream; an `'end'` message ends the stream, firing
`rl.on('close')`, which finalizes the digest and posts the report (returned
here as the second component); any other message matches no branch. -/
def workerStep (st : WorkerState) (m : Msg) : WorkerState × Option WReport :=
  if m.type == "chunk" then
    ({ st with hashAcc := st.hashAcc ++ m.data, ls := feedChunk st.ls m.data }, none)
  else if m.type == "end" then
    let p := closeLines st.ls
    ({ st with ended := true }, some ⟨"success", sha256hex st.hashAcc, p.1, p.2⟩)
  else (st, none)

/-- One fold step of the worker run: advance the state, append any posted
report. -/
def runStep (acc : WorkerState × List WReport) (m : Msg) : WorkerState × List WReport :=
  ((workerStep acc.1 m).1, acc.2 ++ (workerStep acc.1 m).2.toList)

/-- Run the worker over a message list, collecting every posted report. -/
def runWorker (msgs : List Msg) : WorkerState × List WReport :=
  msgs.foldl runStep (initWS, [])

/-- The message sequence `server.js` sends for one upload whose body arrives
as the given chunks: one `{type:'chunk', data}` per chunk, then `{type:'end'}`. -/
def uploadMsgs (parts : List (List Nat)) : List Msg :=
  parts.map (fun p => ⟨"chunk", p⟩) ++ [⟨"end", []⟩]

/-! ## Request Server (`src/server.js`, the upload branch)

The `logProcessorWorker.on('message')` handler receives a dynamically typed
report object, runs four `assert`s in order, and on success writes the
serialized report to `<REPORTS_DIR>/<finalHash>.json` and answers 200 with
`JSON.stringify({...report, reportPath})`; a failed assertion is caught as an
`AssertionError` and answered with 400 and the plain-text diagnostic.  The
dynamic values are modelled by `JVal`, the reports directory by an abstract
path string, and the Report Store (the filesystem under `REPORTS_DIR`) by a
map from paths to stored report objects. -/

/-- A dynamically typed JavaScript value, as far as the report fields need. -/
inductive JVal where
  | jstr : String → JVal
  | jnum : Int → JVal
  | jbool : Bool → JVal
  | jnull : JVal
deriving Repr, DecidableEq

/-- The report object as received by the server from the worker: the four
fields the worker posts, each carrying an arbitrary dynamic value. -/
structure RawReport where
  status : JVal
  finalHash : JVal
  lineCount : JVal
  errorCount : JVal
deriving Repr, DecidableEq

/-- The four `assert`s of server.js lines 63–66, in source order, returning
the diagnostic of the first one that fails (`none` when all pass):
`status === 'success'`, `typeof finalHash === 'string'`,
`finalHash.length > 10`, `typeof lineCount === 'number'`.
`errorCount` is never inspected. -/
def firstFailure (r : RawReport) : Option String :=
  if r.status ≠ JVal.jstr "success" then some "Worker report status not success"
  else
    match r.finalHash with
    | JVal.jstr h =>
      if ¬ (10 < h.length) then some "Invalid hash length"
      else
        match r.lineCount with
        | JVal.jnum _ => none
        | _ => some "Invalid lineCount type"
    | _ => some "Invalid hash type"

/-- The hash string of a report whose `finalHash` passed the string check. -/
def hashStr : JVal → String
  | JVal.jstr h => h
  | _ => ""

/-- The reports directory (`path.join(__dirname, 'reports')`). -/
def REPORTS_DIR : String := "reports"

/-- `path.join(REPORTS_DIR, finalHash + '.json')`. -/
def reportPathOf (h : String) : String := REPORTS_DIR ++ "/" ++ h ++ ".json"

/-- The Report Store: which report object is stored at which path. -/
def Store := String → Option (List (String × JVal))

/-- The store with no reports. -/
def emptyStore : Store := fun _ => none

/-- `fsp.writeFile(reportPath, reportContent)`: create or overwrite the file
at `p` with content `v`. -/
def storePut (s : Store) (p : String) (v : List (String × JVal)) : Store :=
  fun q => if q = p then some v else s q

/-- The JSON object the worker's report serializes to, fields in the order
`postMessage` builds them. -/
def reportJson (r : RawReport) : List (String × JVal) :=
  [("status", r.status), ("finalHash", r.finalHash),
   ("lineCount", r.lineCount), ("errorCount", r.errorCount)]

/-- An HTTP response body: a JSON object or plain text. -/
inductive RBody where
  | jsonObj : List (String × JVal) → RBody
  | text : String → RBody
deriving Repr, DecidableEq

/-- An HTTP response as the handler writes it. -/
structure HttpResponse where
  status : Nat
  contentType : String
  body : RBody
deriving Repr, DecidableEq

/-- The `logProcessorWorker.on('message')` handler (server.js lines 58–94):
validate with the four asserts; on success write the report at its
content-addressed path and answer
`200 {...report, reportPath}`; on an `AssertionError` answer 400 with the
plain-text diagnostic and leave the store alone.  (`mkdir`/`writeFile`
failures, the only source of the 500 branch of the catch, are outside this
pure model: persistence here always succeeds.) -/
def handleReport (r : RawReport) (s : Store) : HttpResponse × Store :=
  match firstFailure r with
  | some msg =>
    (⟨400, "text/plain", RBody.text ("Failed to process report: " ++ msg)⟩, s)
  | none =>
    let p := reportPathOf (hashStr r.finalHash)
    (⟨200, "application/json", RBody.jsonObj (reportJson r ++ [("reportPath", JVal.jstr p)])⟩,
     storePut s p (reportJson r))

/-- The dynamic value of the typed report the worker actually posts. -/
def toRaw (w : WReport) : RawReport :=
  ⟨JVal.jstr w.status, JVal.jstr w.finalHash,
   JVal.jnum (Int.ofNat w.lineCount), JVal.jnum (Int.ofNat w.errorCount)⟩

/-- One whole `POST /upload`: the body arrives as `parts`, the worker is fed
`uploadMsgs parts`, and the single terminal report goes through
`handleReport`.  (The worker always posts exactly one report on this message
sequence, proved below; the default branch is unreachable.) -/
def processUpload (parts : List (List Nat)) (s : Store) : HttpResponse × Store :=
  match (runWorker (uploadMsgs parts)).2 with
  | [r] => handleReport (toRaw r) s
  | _ => (⟨500, "text/plain", RBody.text "no report"⟩, s)

/-- What one of the server's per-upload event handlers does, as an effect
record: the response it writes and whether it calls
`logProcessorWorker.terminate()`. -/
structure HandlerEffect where
  status : Nat
  body : String
  terminatesWorker : Bool
deriving Repr, DecidableEq

/-- The `logProcessorWorker.on('error')` handler (server.js lines 104–108):
write a 500 and end the response; no `terminate()` call appears in it. -/
def onWorkerError (_errMessage : String) : HandlerEffect :=
  ⟨500, "Processing error.", false⟩

/-- The `req.on('error')` handler (server.js lines 97–102): terminate the
worker, then write a 500. -/
def onRequestError (_errMessage : String) : HandlerEffect :=
  ⟨500, "Request stream error.", true⟩

/-- What the `req.on('data')` handler does with one body chunk, as an effect
record: the messages it posts to the worker and whether it pauses the
request stream. -/
structure DataHandlerEffect where
  posted : List Msg
  pausesRequest : Bool
deriving Repr, DecidableEq

/-- The `req.on('data')` handler (server.js lines 48–50): unconditionally
`postMessage({type:'chunk', data: chunk})` and return.  It is given the
saturation state of the worker's inbound channel as a parameter to express
that its behaviour does not depend on it: `postMessage` is fire-and-forget
and the handler never calls `req.pause()`. -/
def onData (_channelSaturated : Bool) (chunk : List Nat) : DataHandlerEffect :=
  ⟨[⟨"chunk", chunk⟩], false⟩

/-- The validation the spec describes, stated from its words for comparison
with `firstFailure`: `status == "success"`, `contentHash` (the report's hash
field) a non-empty string, `lineCount` and `errorLineCount` (the report's
`errorCount` field) non-negative integers. -/
def specValidReport (r : RawReport) : Bool :=
  (r.status == JVal.jstr "success") &&
  (match r.finalHash with | JVal.jstr h => 0 < h.length | _ => false) &&
  (match r.lineCount with | JVal.jnum n => decide (0 ≤ n) | _ => false) &&
  (match r.errorCount with | JVal.jnum n => decide (0 ≤ n) | _ => false)

/-- The field names of a JSON-object body, in order (`[]` for plain text). -/
def bodyKeys : RBody → List String
  | RBody.jsonObj fields => fields.map Prod.fst
  | RBody.text _ => []

/-- Look up a field of a JSON-object body. -/
def bodyField (b : RBody) (k : String) : Option JVal :=
  match b with
  | RBody.jsonObj fields => (fields.find? (fun f => f.1 == k)).map Prod.snd
  | RBody.text _ => none

/-- The report the worker posts for total body content `B`: status
`'success'`, the hex digest of `B`, and the closed-out line counters. -/
def analyze (B : List Nat) : WReport :=
  ⟨"success", sha256hex B, (closeLines (feedChunk initLS B)).1,
   (closeLines (feedChunk initLS B)).2⟩

/-! ## Helper lemmas -/

theorem feedChunk_append (st : LineState) (a b : List Nat) :
    feedChunk st (a ++ b) = feedChunk (feedChunk st a) b := by
  simp [feedChunk, List.foldl_append]

theorem foldChunks (parts : List (List Nat)) (st : WorkerState) (out : List WReport) :
    (parts.map (fun p => (⟨"chunk", p⟩ : Msg))).foldl runStep (st, out)
      = (⟨st.hashAcc ++ parts.flatten, feedChunk st.ls parts.flatten, st.ended⟩, out) := by
  induction parts generalizing st out with
  | nil => simp [feedChunk]
  | cons p ps ih =>
    simp only [List.map_cons, List.foldl_cons, List.flatten_cons]
    rw [show runStep (st, out) ⟨"chunk", p⟩
          = ((⟨st.hashAcc ++ p, feedChunk st.ls p, st.ended⟩ : WorkerState), out) by
        simp [runStep, workerStep]]
    rw [ih]
    simp [feedChunk_append, List.append_assoc]

theorem runWorker_uploadMsgs (parts : List (List Nat)) :
    runWorker (uploadMsgs parts)
      = (⟨parts.flatten, feedChunk initLS parts.flatten, true⟩, [analyze parts.flatten]) := by
  unfold runWorker uploadMsgs
  rw [List.foldl_append, foldChunks]
  simp [runStep, workerStep, analyze, initWS]

theorem processUpload_eq (parts : List (List Nat)) (s : Store) :
    processUpload parts s = handleReport (toRaw (analyze parts.flatten)) s := by
  unfold processUpload
  rw [runWorker_uploadMsgs]

theorem sha256hex_length (m : List Nat) : (sha256hex m).length = 64 := by
  simp [sha256hex, wordHex, String.length]

theorem firstFailure_analyze (B : List Nat) :
    firstFailure (toRaw (analyze B)) = none := by
  have h64 : (10 : Nat) < (sha256hex B).length := by
    rw [sha256hex_length]; omega
  simp [firstFailure, toRaw, analyze, h64]

theorem handleReport_valid (r : RawReport) (s : Store) (hv : firstFailure r = none) :
    handleReport r s
      = (⟨200, "application/json",
          RBody.jsonObj (reportJson r
            ++ [("reportPath", JVal.jstr (reportPathOf (hashStr r.finalHash)))])⟩,
         storePut s (reportPathOf (hashStr r.finalHash)) (reportJson r)) := by
  simp [handleReport, hv]

theorem storePut_idem (s : Store) (p : String) (v : List (String × JVal)) :
    storePut (storePut s p v) p v = storePut s p v := by
  funext q
  simp only [storePut]
  split_ifs <;> rfl

/-! ## Claim theorems -/

set_option maxRecDepth 8192

/-- C3: for every byte sequence and every partition of it into chunks, the
Analysis Worker fed the chunks in order followed by `end` emits the same
reports (hence the same `finalHash`, `lineCount` and `errorCount`) as when
fed the whole sequence as a single chunk followed by `end`. -/
theorem chunk_invariance (B : List Nat) (parts : List (List Nat))
    (hp : parts.flatten = B) :
    (runWorker (uploadMsgs parts)).2 = (runWorker (uploadMsgs [B])).2 := by
  rw [runWorker_uploadMsgs, runWorker_uploadMsgs]
  simp [hp]

/-- Witness for `chunk_invariance`: splitting `"a\nb"` after its first byte
changes nothing. -/
theorem chunk_invariance_witness :
    (runWorker (uploadMsgs [[97], [10, 98]])).2
      = (runWorker (uploadMsgs [[97, 10, 98]])).2 :=
  chunk_invariance [97, 10, 98] [[97], [10, 98]] (by decide)

/-- C4: the worker's line counting on the spec's examples: `"a\nb\nc"` gives
3 lines, `"a\nb\nc\n"` gives 3 lines (trailing empty segment not counted,
non-empty trailing partial line counted), and the four lines
`ok / ERROR x / CRITICAL y / ok` give 4 lines of which 2 are error lines. -/
theorem line_counting_examples :
    ((runWorker (uploadMsgs [[97, 10, 98, 10, 99]])).2.map
        (fun r => (r.lineCount, r.errorCount)) = [(3, 0)])
    ∧ ((runWorker (uploadMsgs [[97, 10, 98, 10, 99, 10]])).2.map
        (fun r => (r.lineCount, r.errorCount)) = [(3, 0)])
    ∧ ((runWorker (uploadMsgs [[111, 107, 10, 69, 82, 82, 79, 82, 32, 120, 10,
          67, 82, 73, 84, 73, 67, 65, 76, 32, 121, 10, 111, 107]])).2.map
        (fun r => (r.lineCount, r.errorCount)) = [(4, 2)]) :=
  ⟨by decide, by decide, by decide⟩

/-- C5 counterexample: on a worker `'error'` event the server answers 500 but
its handler performs no `terminate()` call, refuting "explicitly terminates
the worker". -/
theorem worker_error_no_terminate :
    (onWorkerError "boom").status = 500
    ∧ ¬ ((onWorkerError "boom").terminatesWorker = true) := by decide

/-- C5 amended: a worker error is answered with 500 `Processing error.` and
no explicit termination; only the request-stream error handler both answers
500 and terminates the worker. -/
theorem worker_error_response (msg : String) :
    onWorkerError msg = ⟨500, "Processing error.", false⟩
    ∧ onRequestError msg = ⟨500, "Request stream error.", true⟩ :=
  ⟨rfl, rfl⟩

/-- C7 counterexample: even with the worker's inbound channel saturated, the
`data` handler still forwards the chunk and does not pause the request
stream, refuting the claimed backpressure. -/
theorem saturated_channel_no_pause :
    (onData true [0]).posted = [⟨"chunk", [0]⟩]
    ∧ ¬ ((onData true [0]).pausesRequest = true) := by decide

/-- C7 amended: every body chunk is forwarded to the worker unconditionally
as one `{type:'chunk'}` message, independently of the channel's saturation
state, and the request stream is never paused (no backpressure exists). -/
theorem chunk_forwarding_unconditional (sat : Bool) (chunk : List Nat) :
    onData sat chunk = ⟨[⟨"chunk", chunk⟩], false⟩
    ∧ onData sat chunk = onData false chunk :=
  ⟨rfl, rfl⟩

/-- C8: an empty upload (no chunk messages, then `end`) makes the worker
emit exactly one terminal message: a success report with zero lines, zero
error lines, and the hex SHA-256 digest of the empty byte string. -/
theorem empty_upload_report :
    (runWorker (uploadMsgs [])).2
      = [⟨"success",
          "e3b0c44298fc1c149afbf4c8996fb92427ae41e4649b934ca495991b7852b855",
          0, 0⟩] := by decide

/-- C10: a message whose type is neither `'chunk'` nor `'end'` matches no
branch of the worker's message handler: state (hash accumulator, counters,
stream) is unchanged and no terminal message is posted. -/
theorem unknown_message_noop (st : WorkerState) (m : Msg)
    (h1 : m.type ≠ "chunk") (h2 : m.type ≠ "end") :
    workerStep st m = (st, none) := by
  simp [workerStep, h1, h2]

/-- Witness for `unknown_message_noop` at a concrete `'progress'` message. -/
theorem unknown_message_noop_witness :
    workerStep initWS ⟨"progress", []⟩ = (initWS, none) :=
  unknown_message_noop initWS ⟨"progress", []⟩ (by decide) (by decide)

theorem feedByte_inv (st : LineState) (b : Nat)
    (hst : st.errorCount ≤ st.lineCount) :
    (feedByte st b).errorCount ≤ (feedByte st b).lineCount := by
  simp only [feedByte, onLine]
  split_ifs <;> simp <;> omega

theorem feedChunk_inv (bs : List Nat) (st : LineState)
    (hst : st.errorCount ≤ st.lineCount) :
    (feedChunk st bs).errorCount ≤ (feedChunk st bs).lineCount := by
  induction bs generalizing st with
  | nil => exact hst
  | cons b bs ih =>
    simp only [feedChunk, List.foldl_cons]
    exact ih (feedByte st b) (feedByte_inv st b hst)

theorem closeLines_inv (st : LineState) (hst : st.errorCount ≤ st.lineCount) :
    (closeLines st).2 ≤ (closeLines st).1 := by
  simp only [closeLines, onLine]
  split_ifs <;> simp <;> omega

theorem workerStep_inv (st : WorkerState) (m : Msg)
    (hst : st.ls.errorCount ≤ st.ls.lineCount) :
    ((workerStep st m).1.ls.errorCount ≤ (workerStep st m).1.ls.lineCount)
    ∧ (∀ w ∈ (workerStep st m).2.toList, w.errorCount ≤ w.lineCount) := by
  simp only [workerStep]
  split_ifs with h1 h2
  · exact ⟨feedChunk_inv m.data st.ls hst, by simp⟩
  · refine ⟨hst, ?_⟩
    intro w hw
    simp only [Option.toList_some, List.mem_singleton] at hw
    subst hw
    exact closeLines_inv st.ls hst
  · exact ⟨hst, by simp⟩

theorem runFold_inv (msgs : List Msg) (st : WorkerState) (out : List WReport)
    (hst : st.ls.errorCount ≤ st.ls.lineCount)
    (hout : ∀ w ∈ out, w.errorCount ≤ w.lineCount) :
    ((msgs.foldl runStep (st, out)).1.ls.errorCount
       ≤ (msgs.foldl runStep (st, out)).1.ls.lineCount)
    ∧ (∀ w ∈ (msgs.foldl runStep (st, out)).2, w.errorCount ≤ w.lineCount) := by
  induction msgs generalizing st out with
  | nil => exact ⟨hst, hout⟩
  | cons m ms ih =>
    simp only [List.foldl_cons]
    have hs := workerStep_inv st m hst
    refine ih (workerStep st m).1 (out ++ (workerStep st m).2.toList) hs.1 ?_
    intro w hw
    rcases List.mem_append.mp hw with h | h
    · exact hout w h
    · exact hs.2 w h

/-- C9: the worker's counters start at 0; the `line` handler adds exactly 1
to `lineCount` and at most 1 to `errorCount`; every byte step leaves both
counters non-decreasing; and after processing any message sequence —
including in every posted report — `errorCount ≤ lineCount` (both being
`Nat`, `0 ≤ errorCount` holds by type). -/
theorem counter_invariant :
    (initWS.ls.lineCount = 0 ∧ initWS.ls.errorCount = 0)
    ∧ (∀ lc ec line, (onLine lc ec line).1 = lc + 1
        ∧ ec ≤ (onLine lc ec line).2 ∧ (onLine lc ec line).2 ≤ ec + 1)
    ∧ (∀ st b, st.lineCount ≤ (feedByte st b).lineCount
        ∧ st.errorCount ≤ (feedByte st b).errorCount)
    ∧ (∀ msgs, ((runWorker msgs).1.ls.errorCount ≤ (runWorker msgs).1.ls.lineCount)
        ∧ ∀ w ∈ (runWorker msgs).2, w.errorCount ≤ w.lineCount) := by
  refine ⟨⟨rfl, rfl⟩, ?_, ?_, ?_⟩
  · intro lc ec line
    simp only [onLine]
    split_ifs <;> simp
  · intro st b
    simp only [feedByte, onLine]
    split_ifs <;> simp
  · intro msgs
    exact runFold_inv msgs initWS [] (by simp [initWS, initLS]) (by simp)

theorem firstFailure_none_iff (r : RawReport) :
    firstFailure r = none ↔
      (r.status = JVal.jstr "success"
       ∧ (∃ h, r.finalHash = JVal.jstr h ∧ 10 < h.length)
       ∧ (∃ n, r.lineCount = JVal.jnum n)) := by
  obtain ⟨st, fh, lc, ec⟩ := r
  simp only [firstFailure]
  cases fh <;> cases lc <;> split_ifs <;> simp_all <;> split_ifs <;> simp_all

/-- C1 counterexample: the report
`{status:'success', finalHash:'abc', lineCount:0, errorCount:0}` satisfies
the claimed validation (success status, non-empty hash string, non-negative
integer counts) yet the server rejects it with 400 and stores nothing,
because the code's check is `finalHash.length > 10`, not non-emptiness. -/
theorem upload_report_validation_spec_mismatch :
    specValidReport ⟨JVal.jstr "success", JVal.jstr "abc",
        JVal.jnum 0, JVal.jnum 0⟩ = true
    ∧ (handleReport ⟨JVal.jstr "success", JVal.jstr "abc",
        JVal.jnum 0, JVal.jnum 0⟩ emptyStore).1.status = 400
    ∧ (handleReport ⟨JVal.jstr "success", JVal.jstr "abc",
        JVal.jnum 0, JVal.jnum 0⟩ emptyStore).2 = emptyStore :=
  ⟨by decide, by decide, rfl⟩

/-- C1 amended: the server accepts a worker report (200 and persistence) iff
`status === 'success'`, `finalHash` is a string of length greater than 10,
and `lineCount` is a number; `errorCount` and the signs of the counts are
never checked.  Whenever an assertion fails, the response is 400 with the
assertion's diagnostic and the Report Store is unchanged. -/
theorem upload_report_validation (r : RawReport) (s : Store) :
    ((handleReport r s).1.status = 200 ↔
       (r.status = JVal.jstr "success"
        ∧ (∃ h, r.finalHash = JVal.jstr h ∧ 10 < h.length)
        ∧ (∃ n, r.lineCount = JVal.jnum n)))
    ∧ (∀ msg, firstFailure r = some msg →
        (handleReport r s).1
            = ⟨400, "text/plain", RBody.text ("Failed to process report: " ++ msg)⟩
        ∧ (handleReport r s).2 = s) := by
  constructor
  · rw [← firstFailure_none_iff]
    rcases hf : firstFailure r with _ | msg <;> simp [handleReport, hf]
  · intro msg hmsg
    simp [handleReport, hmsg]

/-- Witness for `upload_report_validation`: a report with a wrong status is
answered by the first assertion's diagnostic. -/
theorem upload_report_validation_witness :
    (handleReport ⟨JVal.jstr "nope", JVal.jnull, JVal.jnull, JVal.jnull⟩
        emptyStore).1
      = ⟨400, "text/plain",
         RBody.text "Failed to process report: Worker report status not success"⟩ :=
  ((upload_report_validation
      ⟨JVal.jstr "nope", JVal.jnull, JVal.jnull, JVal.jnull⟩ emptyStore).2
    "Worker report status not success" (by decide)).1

/-- C2 counterexample: a successful upload (body `"a\n"`) is answered 200,
but the body's fields are `status, finalHash, lineCount, errorCount,
reportPath` — there is no `contentHash` (nor `errorLineCount`) field — and a
validation failure is answered with a plain-text body, not a JSON
`{error}` object. -/
theorem upload_response_shape_mismatch :
    (processUpload [[97, 10]] emptyStore).1.status = 200
    ∧ bodyKeys (processUpload [[97, 10]] emptyStore).1.body
        = ["status", "finalHash", "lineCount", "errorCount", "reportPath"]
    ∧ ¬ ("contentHash" ∈ bodyKeys (processUpload [[97, 10]] emptyStore).1.body)
    ∧ (handleReport ⟨JVal.jstr "x", JVal.jnull, JVal.jnull, JVal.jnull⟩
        emptyStore).1.contentType = "text/plain" :=
  ⟨by decide, by decide, by decide, by decide⟩

/-- C2 amended: every upload whose report passes validation is answered 200
with a JSON object holding exactly the fields
`{status, finalHash, lineCount, errorCount, reportPath}` (and every report a
real worker run posts does pass validation); every validation failure is
answered 400 with the plain-text body
`Failed to process report: <diagnostic>`. -/
theorem upload_response_shape (parts : List (List Nat)) (s : Store) :
    ((processUpload parts s).1.status = 200
     ∧ bodyKeys (processUpload parts s).1.body
         = ["status", "finalHash", "lineCount", "errorCount", "reportPath"])
    ∧ (∀ r msg, firstFailure r = some msg →
        (processUpload parts s).1.contentType = "application/json"
        ∧ (handleReport r s).1
            = ⟨400, "text/plain",
               RBody.text ("Failed to process report: " ++ msg)⟩) := by
  have hmain := handleReport_valid (toRaw (analyze parts.flatten)) s
      (firstFailure_analyze parts.flatten)
  constructor
  · rw [processUpload_eq, hmain]
    simp [bodyKeys, reportJson]
  · intro r msg hmsg
    rw [processUpload_eq, hmain]
    exact ⟨rfl, by simp [handleReport, hmsg]⟩

/-- Witness for `upload_response_shape`: the amended 400 shape at a concrete
invalid report. -/
theorem upload_response_shape_witness :
    (handleReport ⟨JVal.jnull, JVal.jnull, JVal.jnull, JVal.jnull⟩
        emptyStore).1
      = ⟨400, "text/plain",
         RBody.text "Failed to process report: Worker report status not success"⟩ :=
  ((upload_response_shape [] emptyStore).2
    ⟨JVal.jnull, JVal.jnull, JVal.jnull, JVal.jnull⟩
    "Worker report status not success" (by decide)).2

/-- C6: uploading byte-identical content twice gives two identical 200
responses — in particular the same `finalHash`, the hex digest of the
content — and afterwards the store holds the serialized report at exactly
`reports/<hash>.json`, every other path unchanged; the second upload rewrites
the same entry, leaving the store exactly as after the first (idempotence). -/
theorem duplicate_upload_idempotent (B : List Nat) (s : Store) :
    (processUpload [B] s).1.status = 200
    ∧ (processUpload [B] ((processUpload [B] s).2)).1 = (processUpload [B] s).1
    ∧ bodyField (processUpload [B] s).1.body "finalHash"
        = some (JVal.jstr (sha256hex B))
    ∧ (processUpload [B] ((processUpload [B] s).2)).2 = (processUpload [B] s).2
    ∧ (processUpload [B] s).2 (reportPathOf (sha256hex B))
        = some (reportJson (toRaw (analyze B)))
    ∧ (∀ q, q ≠ reportPathOf (sha256hex B) → (processUpload [B] s).2 q = s q) := by
  have hfl : ([B] : List (List Nat)).flatten = B := by simp
  have hv := firstFailure_analyze B
  have hone : ∀ t : Store, processUpload [B] t
      = (⟨200, "application/json",
          RBody.jsonObj (reportJson (toRaw (analyze B))
            ++ [("reportPath", JVal.jstr (reportPathOf (sha256hex B)))])⟩,
         storePut t (reportPathOf (sha256hex B)) (reportJson (toRaw (analyze B)))) := by
    intro t
    rw [processUpload_eq, hfl, handleReport_valid _ _ hv]
    simp [toRaw, analyze, hashStr]
  refine ⟨?_, ?_, ?_, ?_, ?_, ?_⟩
  · rw [hone]
  · rw [hone, hone]
  · rw [hone]
    simp [bodyField, reportJson, toRaw, analyze, List.find?]
  · rw [hone, hone]
    exact storePut_idem s _ _
  · rw [hone]
    simp [storePut]
  · intro q hq
    rw [hone]
    simp [storePut, hq]

/-- Witness for `duplicate_upload_idempotent`: after one empty upload no
unrelated path is written. -/
theorem duplicate_upload_idempotent_witness :
    (processUpload [[]] emptyStore).2 "unrelated.txt" = emptyStore "unrelated.txt" :=
  (duplicate_upload_idempotent [] emptyStore).2.2.2.2.2 "unrelated.txt" (by decide)

end Pipeline
